import Mathlib

/-!
Verification of the breeze template engine (src/breeze.c, src/breeze.h).

This file gives a shallow embedding of the rendering engine
(render_template and its helpers) and proves the frozen claims about it.

Modelling conventions:
* C strings (the template, variable names, messages, the output buffer
  contents) are NUL-free lists of characters; a position is a Nat index.
  The terminating NUL of C strings is represented by the end of the list,
  so loops of the form while (*p) become bounds checks against the length.
* The fixed-size local buffers of the C code (var_name[128], directive[128],
  condition_copy[128], msg[128], err->message[256]) are modelled by the
  corresponding explicit length checks and List.take truncations that the
  C code performs via snprintf/strncpy.
* malloc/realloc failure (TMPL_ERR_MEMORY paths) is not modelled: the
  output buffer and the two stacks are unbounded lists here.
* Arrays are modelled as typed lists. In C an array value carries a raw
  pointer, a count and an item_type tag, and every element access
  reinterprets the memory through the tag; for arrays whose stored
  elements agree with the tag (the only ones whose behavior is defined)
  that access is exactly a typed list lookup, with count = list length.
  Float and double payloads are modelled as exact rationals; no claim
  depends on binary floating-point representation.
* The C scanning loop always terminates (every iteration either advances
  the scan position or bounded loop indices); the embedding makes this
  explicit with a fuel parameter, and the entry point supplies a fuel
  budget sufficient for the executions examined here.
-/

namespace Breeze

/-- C isspace on the characters the engine can see: space, tab, newline,
vertical tab, form feed, carriage return. -/
def isSpaceC (c : Char) : Bool :=
  c == ' ' || c == '\t' || c == '\n' || c == '\x0b' || c == '\x0c' || c == '\r'

/-- Remove trailing whitespace, as the end-pointer loops in render_template
and evaluate_condition do. -/
def dropTrailingWs (l : List Char) : List Char :=
  (l.reverse.dropWhile isSpaceC).reverse

/-- Trim leading and trailing whitespace, as render_template does for
variable names and directive bodies and evaluate_condition does for
conditions. -/
def trimC (l : List Char) : List Char :=
  dropTrailingWs (l.dropWhile isSpaceC)

/-- strncmp(l, pat, strlen(pat)) == 0: pat is a prefix of the text l. The
recursion is on the pattern, mirroring the fact that strncmp examines
the text only as far as the pattern reaches. -/
def strncmpEq : List Char → List Char → Bool
  | [], _ => true
  | p :: ps, l =>
      match l with
      | [] => false
      | c :: cs => p == c && strncmpEq ps cs

/-- strncmp(t + i, pat, strlen(pat)) == 0: the template matches pat at
position i. -/
def startsWithAt (t : List Char) (i : Nat) (pat : List Char) : Bool :=
  strncmpEq pat (t.drop i)

/-- Auxiliary scan for strstr: index of the first position (counted from i)
where pat occurs in the remaining text. -/
def findSubAux (pat : List Char) : List Char → Nat → Option Nat
  | [], i => if strncmpEq pat [] then some i else none
  | c :: rest, i =>
      if strncmpEq pat (c :: rest) then some i else findSubAux pat rest (i + 1)

/-- strstr(t + start, pat), returning the absolute index of the first
occurrence of pat at or after start. -/
def findFrom (t : List Char) (start : Nat) (pat : List Char) : Option Nat :=
  (findSubAux pat (t.drop start) 0).map (fun j => j + start)

/-- The segment of the template between positions a (inclusive) and b
(exclusive), as copied by memcpy into the local name and directive
buffers. -/
def sliceT (t : List Char) (a b : Nat) : List Char :=
  (t.take b).drop a

/-- calculate_line_number: 1-based line of a position, counting newlines
from the start of the template. -/
def calcLine (t : List Char) (pos : Nat) : Nat :=
  1 + (t.take pos).countP (fun c => c == '\n')

/-- Walk backwards from a position to the start of its source line, as the
line_start loop of the whitespace-control logic does. -/
def lineStartAux (t : List Char) : Nat → Nat
  | 0 => 0
  | j + 1 => if t.getD j ' ' == '\n' then j + 1 else lineStartAux t j

/-- Start of the source line containing position pos. -/
def lineStart (t : List Char) (pos : Nat) : Nat := lineStartAux t pos

/-- The standalone test of the whitespace-control logic: only whitespace
between the start of the line and the opening brace of the tag, and only
whitespace between the closing brace of the tag and the next newline or
the end of the template. -/
def isStandalone (t : List Char) (tagStart dirEnd : Nat) : Bool :=
  let before := (t.take tagStart).drop (lineStart t tagStart)
  before.all isSpaceC &&
    ((t.drop (dirEnd + 2)).takeWhile (fun c => c != '\n')).all isSpaceC

/-- Advance the scan position past the rest of the source line after a
standalone tag, consuming the trailing newline if present. -/
def skipLine (t : List Char) (dirEnd : Nat) : Nat :=
  let q := dirEnd + 2 + ((t.drop (dirEnd + 2)).takeWhile (fun c => c != '\n')).length
  if q < t.length then q + 1 else q

/-- Position just after the last newline in the output buffer (or 0 with no
newline), as computed by the backwards scan that truncates the buffer for
a standalone tag. -/
def bufLineStart (out : List Char) : Nat :=
  out.length - (out.reverse.takeWhile (fun c => c != '\n')).length

/-- Consume the run of newline characters at position p, as the
while loops that eat redundant newlines after conditional jumps do. -/
def skipNewlines (t : List Char) (p : Nat) : Nat :=
  p + ((t.drop p).takeWhile (fun c => c == '\n')).length

/-- strtok_r tokenization of the for-directive body on single spaces:
maximal runs of non-space characters, empty tokens dropped. -/
def splitSpacesAux : List Char → List Char → List (List Char)
  | [], acc => if acc.isEmpty then [] else [acc.reverse]
  | c :: rest, acc =>
      if c == ' ' then
        if acc.isEmpty then splitSpacesAux rest []
        else acc.reverse :: splitSpacesAux rest []
      else splitSpacesAux rest (c :: acc)

/-- Tokens of a directive body, split on spaces. -/
def splitSpaces (l : List Char) : List (List Char) := splitSpacesAux l []

/-- No template construct begins at the head of this suffix: no variable
tag, no directive tag, no comment opener, no comment closer. -/
def noSpecialAt (s : List Char) : Bool :=
  !(strncmpEq "\x7b\x7b".data s) && !(strncmpEq "\x7b%".data s)
    && !(strncmpEq "<!--".data s) && !(strncmpEq "-->".data s)

/-- The text is pure literal text: no construct begins at any position. -/
def plainTails (l : List Char) : Bool := l.tails.all noSpecialAt

/-- The list is a valid C string body: it contains no NUL character. -/
def noNul (l : List Char) : Bool := l.all (fun c => c != '\x00')

/-- Typed array contents. A C template array holds an untyped pointer, a
count and an item_type tag, and each access reinterprets memory through
the tag; an array whose elements agree with its tag (the only case with
defined behavior) is exactly one of these typed lists, with
count = length. Arrays of arrays are not representable, mirroring the
fact that the C code has no defined element access for them. -/
inductive ScalarList where
  | sStrs (l : List (Option String))
  | sInts (l : List Int)
  | sFloats (l : List Rat)
  | sDoubles (l : List Rat)
  | sBools (l : List Bool)
  | sLongs (l : List Int)
  | sUInts (l : List Nat)
deriving DecidableEq

/-- TemplateValue: the tagged union of the seven scalar types and arrays.
A TMPL_STRING payload is a nullable pointer, hence Option. -/
inductive TemplateValue where
  | vStr (s : Option String)
  | vInt (n : Int)
  | vFloat (q : Rat)
  | vDouble (q : Rat)
  | vBool (b : Bool)
  | vLong (n : Int)
  | vUInt (n : Nat)
  | vArr (items : ScalarList)
deriving DecidableEq

/-- Number of elements of an array value (value.array.count). -/
def scount : ScalarList → Nat
  | .sStrs l => l.length
  | .sInts l => l.length
  | .sFloats l => l.length
  | .sDoubles l => l.length
  | .sBools l => l.length
  | .sLongs l => l.length
  | .sUInts l => l.length

/-- Rendering of a nullable C string: NULL renders as the empty string,
as value_to_string does for TMPL_STRING. -/
def strChars : Option String → List Char
  | some s => s.data
  | none => []

/-- Element access items[index] through the item_type tag, as performed in
the loop-variable branches of render_template and evaluate_condition.
The default values are never used: the engine only accesses indices below
the count. -/
def fetchItem : ScalarList → Nat → TemplateValue
  | .sStrs l, i => .vStr (l.getD i none)
  | .sInts l, i => .vInt (l.getD i 0)
  | .sFloats l, i => .vFloat (l.getD i 0)
  | .sDoubles l, i => .vDouble (l.getD i 0)
  | .sBools l, i => .vBool (l.getD i false)
  | .sLongs l, i => .vLong (l.getD i 0)
  | .sUInts l, i => .vUInt (l.getD i 0)

/-- is_truthy. -/
def isTruthy : TemplateValue → Bool
  | .vBool b => b
  | .vInt n => n != 0
  | .vFloat q => q != 0
  | .vDouble q => q != 0
  | .vLong n => n != 0
  | .vUInt n => n != 0
  | .vStr s =>
      match s with
      | none => false
      | some str => decide (0 < str.length)
  | .vArr items => decide (0 < scount items)

/-- Decimal digits of an int (snprintf %d / %ld). Payloads are assumed to
be within the C ranges; formatting agrees there. -/
def intChars (n : Int) : List Char :=
  if n < 0 then '-' :: Nat.toDigits 10 n.natAbs else Nat.toDigits 10 n.toNat

/-- snprintf %.4f: fixed point with exactly four fractional digits. The
payload is an exact rational here; rounding is half away from zero. No
claim depends on floating-point formatting. -/
def fixed4Chars (q : Rat) : List Char :=
  let m : Nat := (q.num.natAbs * 10000 + q.den / 2) / q.den
  let sign : List Char := if q.num < 0 then ['-'] else []
  let fp := Nat.toDigits 10 (m % 10000)
  sign ++ Nat.toDigits 10 (m / 10000) ++ ['.'] ++ List.replicate (4 - fp.length) '0' ++ fp

/-- value_to_string: the characters a value appends to the output buffer. -/
def valueChars : TemplateValue → List Char
  | .vStr s => strChars s
  | .vInt n => intChars n
  | .vFloat q => fixed4Chars q
  | .vDouble q => fixed4Chars q
  | .vBool b => if b then "true".data else "false".data
  | .vLong n => intChars n
  | .vUInt n => Nat.toDigits 10 n
  | .vArr items => "[array of size ".data ++ Nat.toDigits 10 (scount items) ++ "]".data

/-- TemplateContext: an ordered sequence of key/value pairs. -/
abbrev Context := List (List Char × TemplateValue)

/-- context_get: linear scan, first match wins, exact key comparison. -/
def contextGet : Context → List Char → Option TemplateValue
  | [], _ => none
  | (k, v) :: rest, key => if k = key then some v else contextGet rest key

/-- TemplateErrorType. errStx is TMPL_ERR_SYNTAX, errMem is
TMPL_ERR_MEMORY. -/
inductive ErrKind where
  | errNone
  | errParse
  | errStx
  | errRender
  | errMem
deriving DecidableEq

/-- TemplateError: kind, message, 1-based line. -/
structure TemplateError where
  kind : ErrKind
  message : List Char
  line : Nat
deriving DecidableEq

/-- set_error: snprintf into the 256-byte message field with size argument
sizeof(message) - 1 stores at most 254 characters. -/
def mkErr (k : ErrKind) (m : List Char) (line : Nat) : TemplateError :=
  ⟨k, m.take 254, line⟩

/-- The missing-variable message, built by snprintf into a 128-byte local
buffer: at most 127 characters survive. -/
def missingVarMsg (name : List Char) : List Char :=
  ("Missing template variable for \x27".data ++ name ++ "\x27".data).take 127

/-- LoopFrame: iterated array, current index, owned copy of the loop
variable name, and the position of the start of the loop body. -/
structure LoopFrame where
  items : ScalarList
  index : Nat
  itemName : List Char
  loopStart : Nat
deriving DecidableEq

/-- ConditionalFrame. -/
structure CondFrame where
  conditionMet : Bool
  inElse : Bool
  ifStart : Nat
deriving DecidableEq

/-- The state the scanning loop of render_template carries across
iterations. The output buffer is part of the state because the engine
both appends to it and truncates it. -/
structure RenderState where
  pos : Nat
  loopStack : List LoopFrame
  condStack : List CondFrame
  out : List Char
  inComment : Bool
  lastComment : Option Nat
deriving DecidableEq

/-- should_skip, from the top conditional frame: skipping iff the guard
held and we are in the else branch, or the guard failed and we are not. -/
def shouldSkip : List CondFrame → Bool
  | [] => false
  | f :: _ => (f.conditionMet && f.inElse) || (!f.conditionMet && !f.inElse)

/-- The whitespace-control block run before dispatching any directive:
for a standalone tag, truncate the output back to the start of its
current line (unless inside a skipped branch) and advance past the rest
of the source line; otherwise advance just past the tag. Returns the new
buffer and the new scan position. -/
def directiveAdvance (t : List Char) (out : List Char) (skip : Bool)
    (tagStart dirEnd : Nat) : List Char × Nat :=
  if isStandalone t tagStart dirEnd then
    (if skip then out else out.take (bufLineStart out), skipLine t dirEnd)
  else
    (out, dirEnd + 2)

/-- evaluate_condition: trim (after the strncpy truncation to 127 bytes),
test the innermost loop variable first, then the context; a missing
variable produces the missing-variable message with kind TMPL_ERR_PARSE
(the code passes TMPL_ERR_PARSE here, not TMPL_ERR_RENDER). -/
def evaluateCondition (condition : List Char) (ctx : Context)
    (ls : List LoopFrame) (line : Nat) : Except TemplateError Bool :=
  let trimmed := trimC (condition.take 127)
  let fromCtx : Except TemplateError Bool :=
    match contextGet ctx trimmed with
    | none => .error (mkErr .errParse (missingVarMsg trimmed) line)
    | some v => .ok (isTruthy v)
  match ls with
  | fr :: _ =>
      if trimmed = fr.itemName then .ok (isTruthy (fetchItem fr.items fr.index))
      else fromCtx
  | [] => fromCtx

/-- The shape check on the tokenized for directive: four tokens were
obtained and the first and third are the keywords. Tokens beyond the
fourth are simply not collected by the strtok loop. -/
def forShapeOk (parts : List (List Char)) : Bool :=
  decide (4 ≤ parts.length) && (parts.getD 0 [] == "for".data)
    && (parts.getD 2 [] == "in".data)

/-- Literal searched for by the empty-array fast-forward. -/
def endforLit : List Char := "\x7b% endfor %\x7d".data

/-- Literal searched for by the false-condition fast-forward. -/
def elseLit : List Char := "\x7b% else %\x7d".data

/-- Literal searched for by the false-condition and else fast-forwards. -/
def endifLit : List Char := "\x7b% endif %\x7d".data

/-- Message of the malformed-for syntax error. -/
def invalidForMsg : List Char :=
  "Invalid \x27for\x27 loop. Use: \x7b% for item in items %\x7d".data

/-- Outcome of a whole render: success with the buffer contents, failure
with the error and the buffer contents at the point of failure, or fuel
exhaustion of the embedding (never reached in the executions examined
here; the C loop terminates). -/
inductive RenderResult where
  | ok (out : List Char)
  | err (e : TemplateError) (out : List Char)
  | fuelOut
deriving DecidableEq

/-- Outcome of one iteration of the scanning loop: the loop returned, or
continues in a new state. -/
inductive StepRes where
  | done (r : RenderResult)
  | next (st : RenderState)
deriving DecidableEq

/-- The variable-substitution arm of the scanning loop. -/
def handleSub (tmpl : List Char) (ctx : Context) (st : RenderState)
    (skip : Bool) : StepRes :=
  let varStart := st.pos + 2
  match findFrom tmpl varStart "\x7d\x7d".data with
  | none =>
      .done (.err (mkErr .errParse "Unterminated \x27\x7b\x7b\x27 tag".data
        (calcLine tmpl st.pos)) st.out)
  | some varEnd =>
      if skip then .next { st with pos := varEnd + 2 }
      else
        if 128 ≤ varEnd - varStart then
          .done (.err (mkErr .errParse "Variable name is too long".data
            (calcLine tmpl st.pos)) st.out)
        else
          let name := trimC (sliceT tmpl varStart varEnd)
          let fromCtx : StepRes :=
            match contextGet ctx name with
            | none =>
                .done (.err (mkErr .errRender (missingVarMsg name)
                  (calcLine tmpl st.pos)) st.out)
            | some v =>
                .next { st with pos := varEnd + 2, out := st.out ++ valueChars v }
          match st.loopStack with
          | fr :: _ =>
              if name = fr.itemName then
                .next { st with pos := varEnd + 2, out := st.out ++ valueChars (fetchItem fr.items fr.index) }
              else fromCtx
          | [] => fromCtx

/-- The directive arm of the scanning loop: whitespace control, then
dispatch on the trimmed directive body. -/
def handleDir (tmpl : List Char) (ctx : Context) (st : RenderState)
    (skip : Bool) : StepRes :=
  let tagStart := st.pos
  let dirStart := st.pos + 2
  match findFrom tmpl dirStart "%\x7d".data with
  | none =>
      .done (.err (mkErr .errParse "Unterminated \x27\x7b%\x27 tag".data
        (calcLine tmpl st.pos)) st.out)
  | some dirEnd =>
      let adv := directiveAdvance tmpl st.out skip tagStart dirEnd
      let out1 := adv.1
      let p1 := adv.2
      if 128 ≤ dirEnd - dirStart then
        .done (.err (mkErr .errParse "Directive is too long".data
          (calcLine tmpl tagStart)) out1)
      else
        let cmd := trimC (sliceT tmpl dirStart dirEnd)
        if cmd.take 4 = "for ".data then
          if skip then .next { st with pos := p1, out := out1 }
          else
            let parts := splitSpaces cmd
            if forShapeOk parts then
              match contextGet ctx (parts.getD 3 []) with
              | some (.vArr items) =>
                  let stack1 : List LoopFrame :=
                    ⟨items, 0, parts.getD 1 [], p1⟩ :: st.loopStack
                  if scount items = 0 then
                    let p2 :=
                      match findFrom tmpl p1 endforLit with
                      | some e => e + endforLit.length
                      | none => p1
                    .next { st with pos := p2, out := out1, loopStack := stack1.tail }
                  else
                    .next { st with pos := p1, out := out1, loopStack := stack1 }
              | _ =>
                  .done (.err (mkErr .errRender
                    "Variable for loop is not a valid array".data
                    (calcLine tmpl tagStart)) out1)
            else
              .done (.err (mkErr .errStx invalidForMsg (calcLine tmpl tagStart)) out1)
        else if cmd = "endfor".data then
          if skip then .next { st with pos := p1, out := out1 }
          else
            match st.loopStack with
            | [] =>
                .done (.err (mkErr .errStx
                  "Found \x27endfor\x27 with no matching \x27for\x27".data
                  (calcLine tmpl tagStart)) out1)
            | fr :: rest =>
                if fr.index + 1 < scount fr.items then
                  .next { st with pos := fr.loopStart, out := out1, loopStack := { fr with index := fr.index + 1 } :: rest }
                else
                  .next { st with pos := p1, out := out1, loopStack := rest }
        else if cmd.take 3 = "if ".data then
          match evaluateCondition (cmd.drop 3) ctx st.loopStack (calcLine tmpl p1) with
          | .error e => .done (.err e out1)
          | .ok result =>
              if result then
                .next { st with pos := p1, out := out1, condStack := ⟨result, false, p1⟩ :: st.condStack }
              else
                let jump : Nat × List CondFrame :=
                  match findFrom tmpl p1 elseLit, findFrom tmpl p1 endifLit with
                  | some ep, none =>
                      (ep + elseLit.length, ⟨result, true, p1⟩ :: st.condStack)
                  | some ep, some ei =>
                      if ep < ei then
                        (ep + elseLit.length, ⟨result, true, p1⟩ :: st.condStack)
                      else (ei + endifLit.length, st.condStack)
                  | none, some ei => (ei + endifLit.length, st.condStack)
                  | none, none => (p1, ⟨result, false, p1⟩ :: st.condStack)
                .next { st with pos := skipNewlines tmpl jump.1, out := out1, condStack := jump.2 }
        else if cmd = "else".data then
          match st.condStack with
          | [] =>
              .done (.err (mkErr .errStx
                "Found \x27else\x27 with no matching \x27if\x27".data
                (calcLine tmpl tagStart)) out1)
          | fr :: rest =>
              if fr.conditionMet then
                match findFrom tmpl p1 endifLit with
                | some ei =>
                    .next { st with pos := skipNewlines tmpl (ei + endifLit.length), out := out1, condStack := rest }
                | none =>
                    .next { st with pos := p1, out := out1, condStack := { fr with inElse := true } :: rest }
              else
                .next { st with pos := p1, out := out1, condStack := { fr with inElse := true } :: rest }
        else if cmd = "endif".data then
          match st.condStack with
          | [] =>
              .done (.err (mkErr .errStx
                "Found \x27endif\x27 with no matching \x27if\x27".data
                (calcLine tmpl tagStart)) out1)
          | _ :: rest => .next { st with pos := p1, out := out1, condStack := rest }
        else
          .next { st with pos := p1, out := out1 }

/-- The checks performed after the scanning loop leaves the template:
unterminated comment, unclosed loop, unclosed conditional. -/
def endChecks (tmpl : List Char) (st : RenderState) : RenderResult :=
  if st.inComment && st.lastComment.isSome then
    .err (mkErr .errStx "Unterminated HTML comment \x27<!--\x27".data
      (calcLine tmpl (st.lastComment.getD 0))) st.out
  else if !st.loopStack.isEmpty then
    .err (mkErr .errStx "Unclosed \x27for\x27 loop at end of template".data
      (calcLine tmpl st.pos)) st.out
  else if !st.condStack.isEmpty then
    .err (mkErr .errStx "Unclosed \x27if\x27 statement at end of template".data
      (calcLine tmpl st.pos)) st.out
  else
    .ok st.out

/-- One iteration of the scanning loop of render_template: comments first,
then the skip state, then variable tags, directive tags and literal
text. -/
def renderStep (tmpl : List Char) (ctx : Context) (st : RenderState) : StepRes :=
  if st.pos < tmpl.length then
    if !st.inComment && startsWithAt tmpl st.pos "<!--".data then
      .next { st with inComment := true, lastComment := some st.pos, pos := st.pos + 4 }
    else if st.inComment then
      if startsWithAt tmpl st.pos "-->".data then
        .next { st with inComment := false, pos := st.pos + 3 }
      else
        .next { st with pos := st.pos + 1 }
    else if startsWithAt tmpl st.pos "-->".data then
      .done (.err (mkErr .errParse "Unmatched comment closing tag \x27-->\x27".data
        (calcLine tmpl st.pos)) st.out)
    else
      let skip := shouldSkip st.condStack
      if startsWithAt tmpl st.pos "\x7b\x7b".data then handleSub tmpl ctx st skip
      else if startsWithAt tmpl st.pos "\x7b%".data then handleDir tmpl ctx st skip
      else if skip then .next { st with pos := st.pos + 1 }
      else .next { st with pos := st.pos + 1, out := st.out ++ [tmpl.getD st.pos ' '] }
  else .done (endChecks tmpl st)

/-- The scanning loop, with explicit fuel. -/
def renderLoop (tmpl : List Char) (ctx : Context) : Nat → RenderState → RenderResult
  | 0, _ => .fuelOut
  | fuel + 1, st =>
      match renderStep tmpl ctx st with
      | .done r => r
      | .next st' => renderLoop tmpl ctx fuel st'

/-- Fuel weight of a context: one plus the element count for every array
value. -/
def ctxWeight : Context → Nat
  | [] => 0
  | (_, .vArr items) :: rest => scount items + 1 + ctxWeight rest
  | _ :: rest => ctxWeight rest

/-- Fuel budget for a render. The C loop terminates on every input; this
budget is sufficient for every execution examined in this development
(it dominates one pass over the template per loop iteration of the
templates considered). -/
def fuelFor (t : List Char) (ctx : Context) : Nat :=
  (t.length + 2) * (ctxWeight ctx + 2)

/-- render_template with a caller-supplied initial output buffer. -/
def renderTemplateWith (tmpl : List Char) (ctx : Context) (out0 : List Char) :
    RenderResult :=
  renderLoop tmpl ctx (fuelFor tmpl ctx) ⟨0, [], [], out0, false, none⟩

/-- render_template against a freshly initialized (empty) output buffer. -/
def renderTemplate (tmpl : List Char) (ctx : Context) : RenderResult :=
  renderTemplateWith tmpl ctx []

/-- The canonical for-loop template of the claim:
a for over fruits, a substitution of fruit followed by a comma and a
space, and the closing endfor. -/
def c1Tmpl : List Char :=
  "\x7b% for fruit in fruits %\x7d\x7b\x7b fruit \x7d\x7d, \x7b% endfor %\x7d".data

/-- A context binding fruits to a string array, ahead of arbitrary further
bindings. -/
def c1Ctx (l : List (Option String)) (rest : Context) : Context :=
  ("fruits".data, .vArr (.sStrs l)) :: rest

/-! Helper lemmas about the scanning primitives. -/

theorem takeWhile_length_le (p : Char → Bool) (l : List Char) :
    (l.takeWhile p).length ≤ l.length := by
  induction l with
  | nil => simp
  | cons c r ih => by_cases h : p c <;> simp [List.takeWhile_cons, h] <;> omega

theorem takeWhile_getD_true (p : Char → Bool) (d : Char) :
    ∀ (l : List Char) (j : Nat), j < (l.takeWhile p).length → p (l.getD j d) = true := by
  intro l
  induction l with
  | nil => intro j h; simp at h
  | cons c r ih =>
      intro j h
      by_cases hc : p c
      · cases j with
        | zero => simpa using hc
        | succ j =>
            have hj : j < (r.takeWhile p).length := by
              simp [List.takeWhile_cons, hc] at h; omega
            simpa using ih j hj
      · simp [List.takeWhile_cons, hc] at h

theorem takeWhile_getD_stop (p : Char → Bool) (d : Char) :
    ∀ (l : List Char), (l.takeWhile p).length < l.length →
      p (l.getD ((l.takeWhile p).length) d) = false := by
  intro l
  induction l with
  | nil => intro h; simp at h
  | cons c r ih =>
      intro h
      by_cases hc : p c
      · have h' : (r.takeWhile p).length < r.length := by
          simp [List.takeWhile_cons, hc] at h; omega
        simpa [List.takeWhile_cons, hc] using ih h'
      · simp only [List.takeWhile_cons, hc]
        simpa using hc

theorem getD_drop (t : List Char) (d : Char) :
    ∀ (a j : Nat), (t.drop a).getD j d = t.getD (a + j) d := by
  induction t with
  | nil => intro a j; simp
  | cons c r ih =>
      intro a j
      cases a with
      | zero => simp
      | succ a => simpa [Nat.succ_add] using ih a j

theorem getD_of_drop_cons {t : List Char} {k : Nat} {c : Char} {rest : List Char}
    (h : t.drop k = c :: rest) : t.getD k ' ' = c := by
  have h2 := getD_drop t ' ' k 0
  rw [h] at h2
  simpa using h2.symm

theorem drop_succ_of_drop_cons {t : List Char} {k : Nat} {c : Char} {rest : List Char}
    (h : t.drop k = c :: rest) : t.drop (k + 1) = rest := by
  have h2 := List.drop_drop 1 k t
  rw [h] at h2
  simpa using h2.symm

theorem strncmpEq_eq_isPrefixOf (p : List Char) :
    ∀ l : List Char, strncmpEq p l = p.isPrefixOf l := by
  induction p with
  | nil => intro l; cases l <;> rfl
  | cons a as ih =>
      intro l
      cases l with
      | nil => rfl
      | cons b bs => simp [strncmpEq, List.isPrefixOf, ih]

theorem pos_lt_of_startsWithAt {t : List Char} {i : Nat} {c : Char} {p : List Char}
    (h : startsWithAt t i (c :: p) = true) : i < t.length := by
  apply List.length_lt_of_drop_ne_nil
  intro hnil
  rw [startsWithAt, hnil] at h
  simp [strncmpEq] at h

theorem strncmpEq_cons_expose {c : Char} {p l : List Char}
    (h : strncmpEq (c :: p) l = true) :
    ∃ rest, l = c :: rest ∧ strncmpEq p rest = true := by
  cases l with
  | nil => simp [strncmpEq] at h
  | cons d rest =>
      simp only [strncmpEq, Bool.and_eq_true, beq_iff_eq] at h
      exact ⟨rest, by rw [h.1], h.2⟩

theorem startsWithAt_expose {t : List Char} {i : Nat} {c : Char} {p : List Char}
    (h : startsWithAt t i (c :: p) = true) :
    ∃ rest, t.drop i = c :: rest ∧ strncmpEq p rest = true := by
  rw [startsWithAt] at h
  exact strncmpEq_cons_expose h

theorem strncmpEq_trans_of_prefix {p q l : List Char} (h1 : p <+: q)
    (h2 : strncmpEq q l = true) : strncmpEq p l = true := by
  rw [strncmpEq_eq_isPrefixOf] at h2 ⊢
  rw [List.isPrefixOf_iff_prefix] at h2 ⊢
  exact h1.trans h2

theorem noSpecialAt_parts {s : List Char} (h : noSpecialAt s = true) :
    strncmpEq "\x7b\x7b".data s = false ∧ strncmpEq "\x7b%".data s = false
      ∧ strncmpEq "<!--".data s = false ∧ strncmpEq "-->".data s = false := by
  have h2 := h
  simp only [noSpecialAt, Bool.and_eq_true, Bool.not_eq_true'] at h2
  exact ⟨h2.1.1.1, h2.1.1.2, h2.1.2, h2.2⟩

theorem plainTails_cons {c : Char} {l : List Char} (h : plainTails (c :: l) = true) :
    noSpecialAt (c :: l) = true ∧ plainTails l = true := by
  simpa [plainTails, List.tails_cons] using h

/-! Lemmas about the fueled scanning loop. -/

theorem renderLoop_zero (tmpl : List Char) (ctx : Context) (st : RenderState) :
    renderLoop tmpl ctx 0 st = .fuelOut := rfl

theorem renderLoop_succ (tmpl : List Char) (ctx : Context) (f : Nat) (st : RenderState) :
    renderLoop tmpl ctx (f + 1) st =
      match renderStep tmpl ctx st with
      | .done r => r
      | .next st' => renderLoop tmpl ctx f st' := rfl

/-- Fuel monotonicity: a result other than fuel exhaustion is stable under
any larger fuel budget. -/
theorem renderLoop_mono (tmpl : List Char) (ctx : Context) :
    ∀ (f f' : Nat) (st : RenderState) (r : RenderResult),
      renderLoop tmpl ctx f st = r → r ≠ .fuelOut → f ≤ f' →
      renderLoop tmpl ctx f' st = r := by
  intro f
  induction f with
  | zero =>
      intro f' st r h hr _
      rw [renderLoop_zero] at h
      exact absurd h.symm hr
  | succ f ih =>
      intro f' st r h hr hle
      obtain ⟨g, rfl⟩ : ∃ g, f' = g + 1 := ⟨f' - 1, by omega⟩
      rw [renderLoop_succ] at h
      rw [renderLoop_succ]
      cases hs : renderStep tmpl ctx st with
      | done r0 => simp only [hs] at h ⊢; exact h
      | next st' => simp only [hs] at h ⊢; exact ih g st' r h hr (by omega)

/-- Scanning pure literal text: every character is emitted unchanged, one
per iteration, and the end-of-input checks succeed on empty stacks. -/
theorem renderLoop_plain (tmpl : List Char) (ctx : Context) :
    ∀ (suffix : List Char) (k : Nat) (out : List Char) (lc : Option Nat) (f : Nat),
      tmpl.drop k = suffix → plainTails suffix = true → suffix.length + 1 ≤ f →
      renderLoop tmpl ctx f ⟨k, [], [], out, false, lc⟩ = .ok (out ++ suffix) := by
  intro suffix
  induction suffix with
  | nil =>
      intro k out lc f hdrop _ hf
      obtain ⟨g, rfl⟩ : ∃ g, f = g + 1 := ⟨f - 1, by omega⟩
      rw [renderLoop_succ]
      have hk : ¬ k < tmpl.length := by
        have := List.drop_eq_nil_iff.mp hdrop
        omega
      have hstep : renderStep tmpl ctx ⟨k, [], [], out, false, lc⟩ = .done (.ok out) := by
        simp [renderStep, hk, endChecks]
      simp only [hstep]
      simp
  | cons c rest ih =>
      intro k out lc f hdrop hplain hf
      obtain ⟨g, rfl⟩ : ∃ g, f = g + 1 := ⟨f - 1, by omega⟩
      have hk : k < tmpl.length := by
        apply List.length_lt_of_drop_ne_nil
        rw [hdrop]
        simp
      obtain ⟨hns, hpl⟩ := plainTails_cons hplain
      obtain ⟨h1, h2, h3, h4⟩ := noSpecialAt_parts hns
      have hgd : tmpl.getD k ' ' = c := getD_of_drop_cons hdrop
      have hge : tmpl[k] = c := by
        rw [← List.getD_eq_getElem tmpl ' ' hk]
        exact hgd
      have hstep : renderStep tmpl ctx ⟨k, [], [], out, false, lc⟩ =
          .next ⟨k + 1, [], [], out ++ [c], false, lc⟩ := by
        simp [renderStep, hk, startsWithAt, hdrop, h1, h2, h3, h4, shouldSkip, hgd, hge]
      rw [renderLoop_succ]
      simp only [hstep]
      have hrec := ih (k + 1) (out ++ [c]) lc g (drop_succ_of_drop_cons hdrop) hpl
        (by simp at hf; omega)
      rw [hrec]
      simp

/-- C8: for every template consisting of pure literal text (no variable
tags, no directives, no HTML comment markers) and any context, rendering
succeeds and the output equals the template byte for byte. The noNul
hypothesis restricts to the domain of C template strings. -/
theorem c8_literal_text_identity (t : List Char) (ctx : Context)
    (hnul : noNul t = true) (hplain : plainTails t = true) :
    renderTemplate t ctx = .ok t := by
  have h2 : (t.length + 2) * 2 ≤ (t.length + 2) * (ctxWeight ctx + 2) :=
    Nat.mul_le_mul_left _ (by omega)
  have hfuel : t.length + 1 ≤ fuelFor t ctx := by
    unfold fuelFor
    omega
  have hmain := renderLoop_plain t ctx t 0 [] none (fuelFor t ctx) (by simp) hplain hfuel
  simpa [renderTemplate, renderTemplateWith] using hmain

/-- C8 witness. -/
theorem c8_literal_text_identity_witness :
    noNul "Hello, World!".data = true ∧ plainTails "Hello, World!".data = true ∧
      renderTemplate "Hello, World!".data [] = .ok "Hello, World!".data :=
  ⟨by decide, by decide, c8_literal_text_identity _ [] (by decide) (by decide)⟩

theorem getD_reverse (l : List Char) (d : Char) (j : Nat) (h : j < l.length) :
    l.reverse.getD (l.length - 1 - j) d = l.getD j d := by
  have hr : l.length - 1 - j < l.reverse.length := by
    rw [List.length_reverse]
    omega
  rw [List.getD_eq_getElem _ d hr, List.getD_eq_getElem _ d h]
  rw [List.getElem_reverse]
  congr 1
  omega

theorem bufLineStart_le (out : List Char) : bufLineStart out ≤ out.length :=
  Nat.sub_le _ _

/-- Every character of the output at or after bufLineStart is not a
newline: the truncation point keeps everything up to and including the
last newline written. -/
theorem bufLineStart_no_newline (out : List Char) :
    ∀ j, bufLineStart out ≤ j → j < out.length → out.getD j ' ' ≠ '\n' := by
  intro j hj hjl
  have hm : out.length - 1 - j < (out.reverse.takeWhile (fun c => c != '\n')).length := by
    unfold bufLineStart at hj
    have := takeWhile_length_le (fun c => c != '\n') out.reverse
    rw [List.length_reverse] at this
    omega
  have ht := takeWhile_getD_true (fun c => c != '\n') ' ' out.reverse (out.length - 1 - j) hm
  rw [getD_reverse out ' ' j hjl] at ht
  simpa using ht

/-- The truncation point is the buffer start or sits just after a
newline. -/
theorem bufLineStart_at_newline (out : List Char) :
    bufLineStart out = 0 ∨ out.getD (bufLineStart out - 1) ' ' = '\n' := by
  by_cases h0 : bufLineStart out = 0
  · exact Or.inl h0
  · right
    have hml : (out.reverse.takeWhile (fun c => c != '\n')).length ≤ out.length := by
      have := takeWhile_length_le (fun c => c != '\n') out.reverse
      rw [List.length_reverse] at this
      exact this
    have hmlt : (out.reverse.takeWhile (fun c => c != '\n')).length < out.reverse.length := by
      rw [List.length_reverse]
      unfold bufLineStart at h0
      omega
    have hs := takeWhile_getD_stop (fun c => c != '\n') ' ' out.reverse hmlt
    have hbj : bufLineStart out - 1 < out.length := by
      unfold bufLineStart at h0 ⊢
      omega
    have he : out.length - 1 - (bufLineStart out - 1)
        = (out.reverse.takeWhile (fun c => c != '\n')).length := by
      unfold bufLineStart at h0 ⊢
      omega
    have hg := getD_reverse out ' ' (bufLineStart out - 1) hbj
    rw [he] at hg
    rw [← hg]
    simpa using hs

theorem skipLine_ge (t : List Char) (dirEnd : Nat) : dirEnd + 2 ≤ skipLine t dirEnd := by
  simp only [skipLine]
  split <;> omega

/-- The characters stepped over by skipLine are exactly the rest of the
source line: either the template ends with no further newline, or the
last consumed character is the newline that ends the line and nothing
before it (from the directive end on) is a newline. -/
theorem skipLine_spec (t : List Char) (dirEnd : Nat) (hde : dirEnd + 2 ≤ t.length) :
    (skipLine t dirEnd = t.length
        ∧ ∀ j, dirEnd + 2 ≤ j → j < t.length → t.getD j ' ' ≠ '\n')
      ∨ (t.getD (skipLine t dirEnd - 1) ' ' = '\n'
        ∧ ∀ j, dirEnd + 2 ≤ j → j + 1 < skipLine t dirEnd → t.getD j ' ' ≠ '\n') := by
  have hml : ((t.drop (dirEnd + 2)).takeWhile (fun c => c != '\n')).length
      ≤ t.length - (dirEnd + 2) := by
    have := takeWhile_length_le (fun c => c != '\n') (t.drop (dirEnd + 2))
    simpa using this
  have hchars : ∀ j, dirEnd + 2 ≤ j →
      j < dirEnd + 2 + ((t.drop (dirEnd + 2)).takeWhile (fun c => c != '\n')).length →
      t.getD j ' ' ≠ '\n' := by
    intro j hj1 hj2
    have hr : j - (dirEnd + 2)
        < ((t.drop (dirEnd + 2)).takeWhile (fun c => c != '\n')).length := by
      omega
    have ht := takeWhile_getD_true (fun c => c != '\n') ' ' (t.drop (dirEnd + 2)) _ hr
    rw [getD_drop] at ht
    have hjj : dirEnd + 2 + (j - (dirEnd + 2)) = j := by omega
    rw [hjj] at ht
    simpa using ht
  by_cases hq : dirEnd + 2 + ((t.drop (dirEnd + 2)).takeWhile (fun c => c != '\n')).length
      < t.length
  · right
    have hstop := takeWhile_getD_stop (fun c => c != '\n') ' ' (t.drop (dirEnd + 2))
      (by simp only [List.length_drop]; omega)
    rw [getD_drop] at hstop
    have hsl : skipLine t dirEnd
        = dirEnd + 2 + ((t.drop (dirEnd + 2)).takeWhile (fun c => c != '\n')).length + 1 := by
      simp only [skipLine]
      rw [if_pos hq]
    constructor
    · rw [hsl]
      simp only [Nat.add_sub_cancel]
      simpa using hstop
    · intro j hj1 hj2
      exact hchars j hj1 (by omega)
  · left
    have hsl : skipLine t dirEnd = t.length := by
      simp only [skipLine]
      rw [if_neg hq]
      omega
    exact ⟨hsl, fun j hj1 hj2 => hchars j hj1 (by omega)⟩

/-- C2: before dispatching any directive, when the tag is standalone and
the renderer is not inside a skipped branch, the output buffer is
truncated back to the position just after the last newline written (or
to the buffer start when it holds no newline), and the scan position
advances past the directive and the remainder of its source line
including the trailing newline; inside a skipped branch the buffer is
left alone but the line is still consumed; a non-standalone tag advances
the scan position only past the directive text (dirEnd + 2 is the first
position after the closing brace pair). The noNul hypothesis restricts
to the domain of C template strings. -/
theorem c2_standalone_whitespace_control (t out : List Char) (skip : Bool)
    (tagStart dirEnd : Nat) (hnul : noNul t = true) (hde : dirEnd + 2 ≤ t.length) :
    (isStandalone t tagStart dirEnd = true → skip = false →
      directiveAdvance t out skip tagStart dirEnd
          = (out.take (bufLineStart out), skipLine t dirEnd)
        ∧ bufLineStart out ≤ out.length
        ∧ (bufLineStart out = 0 ∨ out.getD (bufLineStart out - 1) ' ' = '\n')
        ∧ (∀ j, bufLineStart out ≤ j → j < out.length → out.getD j ' ' ≠ '\n')
        ∧ dirEnd + 2 ≤ skipLine t dirEnd
        ∧ ((skipLine t dirEnd = t.length
              ∧ ∀ j, dirEnd + 2 ≤ j → j < t.length → t.getD j ' ' ≠ '\n')
            ∨ (t.getD (skipLine t dirEnd - 1) ' ' = '\n'
              ∧ ∀ j, dirEnd + 2 ≤ j → j + 1 < skipLine t dirEnd → t.getD j ' ' ≠ '\n')))
    ∧ (isStandalone t tagStart dirEnd = true → skip = true →
        directiveAdvance t out skip tagStart dirEnd = (out, skipLine t dirEnd))
    ∧ (isStandalone t tagStart dirEnd = false →
        directiveAdvance t out skip tagStart dirEnd = (out, dirEnd + 2)) := by
  refine ⟨?_, ?_, ?_⟩
  · intro hsa hskip
    subst hskip
    refine ⟨by simp [directiveAdvance, hsa], bufLineStart_le out,
      bufLineStart_at_newline out, bufLineStart_no_newline out,
      skipLine_ge t dirEnd, skipLine_spec t dirEnd hde⟩
  · intro hsa hskip
    subst hskip
    simp [directiveAdvance, hsa]
  · intro hsa
    simp [directiveAdvance, hsa]

/-- C2 witness: a standalone endif tag with emitted indentation before it. -/
theorem c2_standalone_whitespace_control_witness :
    noNul "ab\n  \x7b% endif %\x7d \nXY".data = true
      ∧ 14 + 2 ≤ "ab\n  \x7b% endif %\x7d \nXY".data.length
      ∧ isStandalone "ab\n  \x7b% endif %\x7d \nXY".data 5 14 = true
      ∧ directiveAdvance "ab\n  \x7b% endif %\x7d \nXY".data "ab\n  ".data false 5 14
          = ("ab\n".data, 18) :=
  ⟨by decide, by decide, by decide, by
    have h := (c2_standalone_whitespace_control "ab\n  \x7b% endif %\x7d \nXY".data
      "ab\n  ".data false 5 14 (by decide) (by decide)).1 (by decide) rfl
    rw [h.1]
    decide⟩

theorem eq_cons3_of_take3 {l : List Char} {a b c : Char} (h : l.take 3 = [a, b, c]) :
    ∃ r, l = a :: b :: c :: r := by
  cases l with
  | nil => simp at h
  | cons x l1 =>
      cases l1 with
      | nil => simp at h
      | cons y l2 =>
          cases l2 with
          | nil => simp at h
          | cons z r =>
              simp at h
              exact ⟨r, by rw [h.1, h.2.1, h.2.2]⟩

/-- When the scanner stands on a directive opener, the iteration is exactly
the directive arm: the comment guards and the variable-tag guard cannot
fire on a brace-percent position. -/
theorem renderStep_eq_handleDir (tmpl : List Char) (ctx : Context) (st : RenderState)
    (hic : st.inComment = false)
    (hsw : startsWithAt tmpl st.pos "\x7b%".data = true) :
    renderStep tmpl ctx st = handleDir tmpl ctx st (shouldSkip st.condStack) := by
  have hlt : st.pos < tmpl.length := pos_lt_of_startsWithAt hsw
  obtain ⟨rest, hd1, hp1⟩ := startsWithAt_expose hsw
  obtain ⟨rest2, hd2, -⟩ := strncmpEq_cons_expose hp1
  subst hd2
  have h1 : startsWithAt tmpl st.pos "<!--".data = false := by
    simp [startsWithAt, hd1, strncmpEq]
  have h2 : startsWithAt tmpl st.pos "-->".data = false := by
    simp [startsWithAt, hd1, strncmpEq]
  have h3 : startsWithAt tmpl st.pos "\x7b\x7b".data = false := by
    simp [startsWithAt, hd1, strncmpEq]
  simp [renderStep, hlt, hic, h1, h2, h3, hsw]

/-- When the scanner stands on a variable-tag opener, the iteration is
exactly the substitution arm. -/
theorem renderStep_eq_handleSub (tmpl : List Char) (ctx : Context) (st : RenderState)
    (hic : st.inComment = false)
    (hsw : startsWithAt tmpl st.pos "\x7b\x7b".data = true) :
    renderStep tmpl ctx st = handleSub tmpl ctx st (shouldSkip st.condStack) := by
  have hlt : st.pos < tmpl.length := pos_lt_of_startsWithAt hsw
  obtain ⟨rest, hd1, hp1⟩ := startsWithAt_expose hsw
  obtain ⟨rest2, hd2, -⟩ := strncmpEq_cons_expose hp1
  subst hd2
  have h1 : startsWithAt tmpl st.pos "<!--".data = false := by
    simp [startsWithAt, hd1, strncmpEq]
  have h2 : startsWithAt tmpl st.pos "-->".data = false := by
    simp [startsWithAt, hd1, strncmpEq]
  simp [renderStep, hlt, hic, h1, h2, hsw]

/-- Under a skipped branch the whitespace-control logic never touches the
buffer. -/
theorem directiveAdvance_skip_fst (t out : List Char) (a b : Nat) :
    (directiveAdvance t out true a b).1 = out := by
  simp only [directiveAdvance]
  split <;> rfl

/-- A tag that is not standalone advances only past the directive text. -/
theorem directiveAdvance_not_standalone (t out : List Char) (skip : Bool) (a b : Nat)
    (h : isStandalone t a b = false) : directiveAdvance t out skip a b = (out, b + 2) := by
  simp [directiveAdvance, h]

/-- A forward search for a directive-shaped literal fails inside pure
literal text. -/
theorem findSubAux_none_of_plain (pat : List Char) (hpat : "\x7b%".data <+: pat) :
    ∀ (l : List Char), plainTails l = true → ∀ i, findSubAux pat l i = none := by
  intro l
  induction l with
  | nil =>
      intro hp i
      obtain ⟨s, hs⟩ := hpat
      rw [← hs]
      simp [findSubAux, strncmpEq]
  | cons c r ih =>
      intro hp i
      obtain ⟨hns, hpl⟩ := plainTails_cons hp
      have h2 := (noSpecialAt_parts hns).2.1
      have hpf : strncmpEq pat (c :: r) = false := by
        cases hcontra : strncmpEq pat (c :: r)
        · rfl
        · have h3 := strncmpEq_trans_of_prefix hpat hcontra
          rw [h3] at h2
          exact Bool.noConfusion h2
      simp [findSubAux, hpf, ih hpl]

/-- evaluate_condition on a name that is neither the innermost loop
variable nor bound in the context: the missing-variable error, with kind
TMPL_ERR_PARSE. -/
theorem evaluateCondition_missing (cond : List Char) (ctx : Context)
    (ls : List LoopFrame) (line : Nat)
    (hloop : ∀ fr, ls.head? = some fr → trimC (cond.take 127) ≠ fr.itemName)
    (hctx : contextGet ctx (trimC (cond.take 127)) = none) :
    evaluateCondition cond ctx ls line
      = .error (mkErr .errParse (missingVarMsg (trimC (cond.take 127))) line) := by
  cases ls with
  | nil => simp [evaluateCondition, hctx]
  | cons fr rest => simp [evaluateCondition, hctx, hloop fr rfl]


/-- C5 (amended): while should_skip is true, variable substitution and
literal-text emission are suppressed and if/else/endif directives still
perform conditional-stack bookkeeping (see the C10 theorem for the if
case), but for and endfor directives are ignored entirely while
skipping: the scanner only advances past the tag (with whitespace
control applied, which under a skip leaves the buffer alone), changing
neither the loop stack, nor the conditional stack, nor the output. -/
theorem c5_skipped_loop_directives_ignored (tmpl : List Char) (ctx : Context)
    (st : RenderState) (dirEnd : Nat)
    (hic : st.inComment = false)
    (hskip : shouldSkip st.condStack = true)
    (hsw : startsWithAt tmpl st.pos "\x7b%".data = true)
    (hfind : findFrom tmpl (st.pos + 2) "%\x7d".data = some dirEnd)
    (hlen : dirEnd - (st.pos + 2) < 128)
    (hcmd : (trimC (sliceT tmpl (st.pos + 2) dirEnd)).take 4 = "for ".data
      ∨ trimC (sliceT tmpl (st.pos + 2) dirEnd) = "endfor".data) :
    renderStep tmpl ctx st
        = .next { st with pos := (directiveAdvance tmpl st.out true st.pos dirEnd).2 }
      ∧ ({ st with pos := (directiveAdvance tmpl st.out true st.pos dirEnd).2 }
          : RenderState).loopStack = st.loopStack
      ∧ ({ st with pos := (directiveAdvance tmpl st.out true st.pos dirEnd).2 }
          : RenderState).condStack = st.condStack
      ∧ ({ st with pos := (directiveAdvance tmpl st.out true st.pos dirEnd).2 }
          : RenderState).out = st.out := by
  refine ⟨?_, rfl, rfl, rfl⟩
  rw [renderStep_eq_handleDir tmpl ctx st hic hsw, hskip]
  simp only [handleDir, hfind]
  rw [if_neg (by omega : ¬ 128 ≤ dirEnd - (st.pos + 2))]
  rcases hcmd with hfor | hendfor
  · rw [if_pos hfor]
    simp [directiveAdvance_skip_fst]
  · have hnotfor : ¬ (trimC (sliceT tmpl (st.pos + 2) dirEnd)).take 4 = "for ".data := by
      rw [hendfor]
      decide
    rw [if_neg hnotfor, if_pos hendfor]
    simp [directiveAdvance_skip_fst]

/-- C6 (amended): a for directive whose trimmed body begins with the four
characters f, o, r, space is tokenized on spaces; if fewer than four
tokens result, or the first is not the keyword for, or the third is not
the keyword in, rendering fails with the Syntax error Invalid for loop.
Tokens beyond the fourth are ignored rather than rejected (see the
counterexample), and a body not beginning with for-space, such as a bare
for, falls through as an unknown directive. -/
theorem c6_for_directive_shape (tmpl : List Char) (ctx : Context)
    (st : RenderState) (dirEnd : Nat)
    (hic : st.inComment = false)
    (hskip : shouldSkip st.condStack = false)
    (hsw : startsWithAt tmpl st.pos "\x7b%".data = true)
    (hfind : findFrom tmpl (st.pos + 2) "%\x7d".data = some dirEnd)
    (hlen : dirEnd - (st.pos + 2) < 128)
    (hfor : (trimC (sliceT tmpl (st.pos + 2) dirEnd)).take 4 = "for ".data)
    (hshape : forShapeOk (splitSpaces (trimC (sliceT tmpl (st.pos + 2) dirEnd))) = false) :
    renderStep tmpl ctx st
      = .done (.err (mkErr .errStx invalidForMsg (calcLine tmpl st.pos))
          (directiveAdvance tmpl st.out false st.pos dirEnd).1) := by
  rw [renderStep_eq_handleDir tmpl ctx st hic hsw, hskip]
  simp only [handleDir, hfind]
  rw [if_neg (by omega : ¬ 128 ≤ dirEnd - (st.pos + 2))]
  rw [if_pos hfor]
  simp [hshape]

/-- C10: an if directive encountered while should_skip is true still
evaluates its condition against the loop stack and the context, so when
the trimmed name is neither the innermost loop variable nor bound in the
context the whole render aborts with the missing-variable error (whose
kind is TMPL_ERR_PARSE, see C4) even though the skipped branch would
contribute no output. -/
theorem c10_if_condition_checked_while_skipping (tmpl : List Char) (ctx : Context)
    (st : RenderState) (dirEnd : Nat)
    (hic : st.inComment = false)
    (hskip : shouldSkip st.condStack = true)
    (hsw : startsWithAt tmpl st.pos "\x7b%".data = true)
    (hfind : findFrom tmpl (st.pos + 2) "%\x7d".data = some dirEnd)
    (hlen : dirEnd - (st.pos + 2) < 128)
    (hif : (trimC (sliceT tmpl (st.pos + 2) dirEnd)).take 3 = "if ".data)
    (hloop : ∀ fr, st.loopStack.head? = some fr →
      trimC (((trimC (sliceT tmpl (st.pos + 2) dirEnd)).drop 3).take 127) ≠ fr.itemName)
    (hctx : contextGet ctx
      (trimC (((trimC (sliceT tmpl (st.pos + 2) dirEnd)).drop 3).take 127)) = none) :
    renderStep tmpl ctx st
      = .done (.err (mkErr .errParse
          (missingVarMsg (trimC (((trimC (sliceT tmpl (st.pos + 2) dirEnd)).drop 3).take 127)))
          (calcLine tmpl (directiveAdvance tmpl st.out true st.pos dirEnd).2)) st.out) := by
  rw [renderStep_eq_handleDir tmpl ctx st hic hsw, hskip]
  obtain ⟨r, hr⟩ := eq_cons3_of_take3 hif
  have hnotfor : ¬ (trimC (sliceT tmpl (st.pos + 2) dirEnd)).take 4 = "for ".data := by
    rw [hr]
    intro hcontra
    simp at hcontra
  have hnotendfor : ¬ trimC (sliceT tmpl (st.pos + 2) dirEnd) = "endfor".data := by
    rw [hr]
    intro hcontra
    simp at hcontra
  simp only [handleDir, hfind]
  rw [if_neg (by omega : ¬ 128 ≤ dirEnd - (st.pos + 2))]
  rw [if_neg hnotfor, if_neg hnotendfor, if_pos hif]
  rw [evaluateCondition_missing _ ctx st.loopStack _ hloop hctx]
  simp [directiveAdvance_skip_fst]

/-- C3 (amended): a variable substitution evaluated outside a skipped
branch whose trimmed name is neither the innermost loop variable nor
bound in the context aborts rendering with a Render-kind error whose
message is the string Missing template variable for the quoted name
truncated to 127 characters by the snprintf buffer; the message is the
exact full string whenever the name is at most 95 characters long. -/
theorem c3_missing_variable_render_error (tmpl : List Char) (ctx : Context)
    (st : RenderState) (varEnd : Nat)
    (hic : st.inComment = false)
    (hskip : shouldSkip st.condStack = false)
    (hsw : startsWithAt tmpl st.pos "\x7b\x7b".data = true)
    (hfind : findFrom tmpl (st.pos + 2) "\x7d\x7d".data = some varEnd)
    (hlen : varEnd - (st.pos + 2) < 128)
    (hloop : ∀ fr, st.loopStack.head? = some fr →
      trimC (sliceT tmpl (st.pos + 2) varEnd) ≠ fr.itemName)
    (hctx : contextGet ctx (trimC (sliceT tmpl (st.pos + 2) varEnd)) = none) :
    renderStep tmpl ctx st
        = .done (.err (mkErr .errRender
            (missingVarMsg (trimC (sliceT tmpl (st.pos + 2) varEnd)))
            (calcLine tmpl st.pos)) st.out)
      ∧ ((trimC (sliceT tmpl (st.pos + 2) varEnd)).length ≤ 95 →
          missingVarMsg (trimC (sliceT tmpl (st.pos + 2) varEnd))
            = "Missing template variable for \x27".data
                ++ trimC (sliceT tmpl (st.pos + 2) varEnd) ++ "\x27".data) := by
  constructor
  · rw [renderStep_eq_handleSub tmpl ctx st hic hsw, hskip]
    simp only [handleSub, hfind]
    rw [if_neg (by omega : ¬ 128 ≤ varEnd - (st.pos + 2))]
    cases hls : st.loopStack with
    | nil => simp [hctx]
    | cons fr rest => simp [hctx, hloop fr (by rw [hls]; rfl)]
  · intro hle
    unfold missingVarMsg
    apply List.take_of_length_le
    have h31 : ("Missing template variable for \x27".data).length = 31 := rfl
    have h1 : ("\x27".data).length = 1 := rfl
    simp only [List.length_append, h31, h1]
    omega


/-- C9: rendering is a pure, deterministic function of the template and the
context. The engine keeps no state across calls: in the embedding the
whole render state (both stacks, the comment flag, the output sink) is
created afresh from the arguments, so two invocations against fresh
(empty) output buffers return identical results, identical in
success/failure status, output bytes, and error kind, message and line. -/
theorem c9_deterministic_render (t : List Char) (ctx : Context) (b1 b2 : List Char)
    (h1 : b1 = []) (h2 : b2 = []) :
    renderTemplateWith t ctx b1 = renderTemplateWith t ctx b2 := by
  rw [h1, h2]

/-- C9 witness. -/
theorem c9_deterministic_render_witness :
    ([] : List Char) = [] ∧
      renderTemplateWith "a \x7b\x7b b \x7d\x7d c".data [("b".data, .vInt 7)] [] =
        renderTemplateWith "a \x7b\x7b b \x7d\x7d c".data [("b".data, .vInt 7)] [] :=
  ⟨rfl, c9_deterministic_render _ _ _ _ rfl rfl⟩

end Breeze

namespace Breeze

/-- C7 (amended): a for directive over a zero-element array whose following
text contains no literal endfor tag does not report an unclosed
construct: the failed flat forward search leaves the scan position in
place, the frame is popped at once, and rendering continues with the
remaining text, succeeding when that text is plain literal text. A for
over a non-empty array that is left unclosed at end of input does fail
with the Syntax error Unclosed for loop at end of template. All forward
searches are bounded by the template length, so the renderer always
terminates with a result. -/
theorem c7_zero_count_search_failure :
    (∀ (rest : List Char) (c : Char) (rtl : List Char),
        rest = c :: rtl → isSpaceC c = false → plainTails rest = true →
        noNul rest = true →
        renderTemplate ("\x7b% for x in xs %\x7d".data ++ rest)
            [("xs".data, .vArr (.sStrs []))]
          = .ok rest)
      ∧ renderTemplate "\x7b% for fruit in fruits %\x7d\x7b\x7b fruit \x7d\x7d".data
          [("fruits".data, .vArr (.sStrs [some "apple", some "banana"]))]
        = .err ⟨.errStx, "Unclosed \x27for\x27 loop at end of template".data, 1⟩
            "apple".data := by
  constructor
  · intro rest c rtl hrc hns hplain hnul
    have hsw : startsWithAt ("\x7b% for x in xs %\x7d".data ++ rest) 0 "\x7b%".data
        = true := rfl
    have hf215 : findFrom ("\x7b% for x in xs %\x7d".data ++ rest) 2 "%\x7d".data
        = some 15 := rfl
    have hdrop17 : ("\x7b% for x in xs %\x7d".data ++ rest).drop (15 + 2) = rest :=
      List.drop_left "\x7b% for x in xs %\x7d".data rest
    have hcne : (c != '\n') = true := by
      cases hceq : c == '\n'
      · simp [bne, hceq]
      · exfalso
        have hc2 : c = '\n' := by simpa using hceq
        rw [hc2] at hns
        simp [isSpaceC] at hns
    have hsa : isStandalone ("\x7b% for x in xs %\x7d".data ++ rest) 0 15 = false := by
      simp only [isStandalone]
      rw [hdrop17, hrc]
      simp [List.takeWhile_cons, hcne, hns]
    have hfe : findFrom ("\x7b% for x in xs %\x7d".data ++ rest) (15 + 2) endforLit
        = none := by
      simp only [findFrom, hdrop17]
      rw [findSubAux_none_of_plain endforLit (by decide) rest hplain 0]
      rfl
    have hstep0 : renderStep ("\x7b% for x in xs %\x7d".data ++ rest)
        [("xs".data, .vArr (.sStrs []))] ⟨0, [], [], [], false, none⟩
        = .next ⟨17, [], [], [], false, none⟩ := by
      rw [renderStep_eq_handleDir _ _ _ rfl hsw]
      have hcmd : trimC (sliceT ("\x7b% for x in xs %\x7d".data ++ rest) (0 + 2) 15)
          = "for x in xs".data := rfl
      simp only [handleDir, hf215, shouldSkip, hcmd,
        directiveAdvance_not_standalone _ _ _ _ _ hsa, hfe]
      simp +decide [contextGet, forShapeOk, splitSpaces, splitSpacesAux, scount, hfe]
    have hrun : renderLoop ("\x7b% for x in xs %\x7d".data ++ rest)
        [("xs".data, .vArr (.sStrs []))] (rest.length + 2) ⟨0, [], [], [], false, none⟩
        = .ok rest := by
      rw [show rest.length + 2 = (rest.length + 1) + 1 from rfl]
      rw [renderLoop_succ]
      simp only [hstep0]
      have hpl := renderLoop_plain ("\x7b% for x in xs %\x7d".data ++ rest)
        [("xs".data, .vArr (.sStrs []))] rest 17 [] none (rest.length + 1)
        hdrop17 hplain (le_refl _)
      simpa using hpl
    have hlen : ("\x7b% for x in xs %\x7d".data ++ rest).length = 17 + rest.length := by
      rw [List.length_append]
      rfl
    have hw : ctxWeight [(("xs".data : List Char), .vArr (.sStrs []))] = 1 := rfl
    have hfl : rest.length + 2
        ≤ fuelFor ("\x7b% for x in xs %\x7d".data ++ rest)
            [("xs".data, .vArr (.sStrs []))] := by
      rw [fuelFor, hw, hlen]
      omega
    have hne : (RenderResult.ok rest) ≠ .fuelOut := by simp
    exact renderLoop_mono _ _ _ _ _ _ hrun hne hfl
  · decide



/-- C7 witness. -/
theorem c7_zero_count_search_failure_witness :
    plainTails "hello".data = true
      ∧ renderTemplate ("\x7b% for x in xs %\x7d".data ++ "hello".data)
          [("xs".data, .vArr (.sStrs []))] = .ok "hello".data :=
  ⟨by decide, c7_zero_count_search_failure.1 "hello".data 'h' "ello".data rfl
    (by decide) (by decide) (by decide)⟩

/-- C7 counterexample to the claim as stated: a for over a zero-element
array with no endfor in the following text renders successfully instead
of failing with an unclosed-construct Syntax error. -/
theorem c7_counterexample_empty_array_for_succeeds :
    renderTemplate "\x7b% for x in xs %\x7dhello".data [("xs".data, .vArr (.sStrs []))]
      = .ok "hello".data := by decide

/-- C4: an if directive naming a variable that is neither the innermost
loop variable nor bound in the context aborts rendering with the message
Missing template variable for the name, but evaluate_condition passes
TMPL_ERR_PARSE to set_error, not TMPL_ERR_RENDER as the claim (and the
header documentation of TMPL_ERR_RENDER, Variable not found) states. -/
theorem c4_if_missing_variable_is_parse_kind :
    renderTemplate "\x7b% if age %\x7dx\x7b% endif %\x7d".data []
        = .err ⟨.errParse, "Missing template variable for \x27age\x27".data, 1⟩ []
      ∧ ErrKind.errParse ≠ ErrKind.errRender :=
  ⟨by decide, by decide⟩

/-- C3 witness: the exact message for a short name, at the substitution
step and end to end. -/
theorem c3_missing_variable_render_error_witness :
    contextGet [] (trimC (sliceT "\x7b\x7b age \x7d\x7d".data (0 + 2) 7)) = none
      ∧ renderStep "\x7b\x7b age \x7d\x7d".data [] ⟨0, [], [], [], false, none⟩
          = .done (.err ⟨.errRender, "Missing template variable for \x27age\x27".data, 1⟩ [])
      ∧ renderTemplate "\x7b\x7b age \x7d\x7d".data []
          = .err ⟨.errRender, "Missing template variable for \x27age\x27".data, 1⟩ [] := by
  refine ⟨by decide, ?_, by decide⟩
  have h := (c3_missing_variable_render_error "\x7b\x7b age \x7d\x7d".data []
    ⟨0, [], [], [], false, none⟩ 7 rfl (by decide) (by decide) (by decide) (by decide)
    (by intro fr hfr; simp at hfr) (by decide)).1
  rw [h]
  decide

/-- C3 counterexample to the claim as stated: for a 96-character variable
name the snprintf buffer truncates the message to 127 characters, so the
message is not exactly the full string with the closing quote. -/
theorem c3_counterexample_long_name_message_truncated :
    renderTemplate ("\x7b\x7b ".data ++ List.replicate 96 'a' ++ " \x7d\x7d".data) []
        ≠ .err ⟨.errRender,
            "Missing template variable for \x27".data ++ List.replicate 96 'a'
              ++ "\x27".data, 1⟩ []
      ∧ renderTemplate ("\x7b\x7b ".data ++ List.replicate 96 'a' ++ " \x7d\x7d".data) []
        = .err ⟨.errRender,
            ("Missing template variable for \x27".data ++ List.replicate 96 'a'
              ++ "\x27".data).take 127, 1⟩ [] :=
  ⟨by decide, by decide⟩

/-- C5 counterexample to the claim as stated: a for directive scanned
while should_skip is true leaves the loop stack empty instead of pushing
a loop frame. -/
theorem c5_counterexample_for_not_pushed_while_skipping :
    shouldSkip [⟨false, false, 0⟩] = true
      ∧ renderStep "\x7b% for x in xs %\x7dA".data [("xs".data, .vArr (.sStrs [some "a"]))]
          ⟨0, [], [⟨false, false, 0⟩], [], false, none⟩
        = .next ⟨17, [], [⟨false, false, 0⟩], [], false, none⟩ :=
  ⟨by decide, by decide⟩

/-- C5 witness: an endfor directive under a skipped branch only advances
the scan position. -/
theorem c5_skipped_loop_directives_ignored_witness :
    shouldSkip [⟨true, true, 0⟩] = true
      ∧ renderStep "\x7b% endfor %\x7dA".data [] ⟨0, [], [⟨true, true, 0⟩], [], false, none⟩
        = .next ⟨12, [], [⟨true, true, 0⟩], [], false, none⟩ := by
  refine ⟨by decide, ?_⟩
  have h := (c5_skipped_loop_directives_ignored "\x7b% endfor %\x7dA".data []
    ⟨0, [], [⟨true, true, 0⟩], [], false, none⟩ 10 rfl (by decide) (by decide) (by decide)
    (by decide) (Or.inr (by decide))).1
  rw [h]
  decide

/-- C6 counterexample to the claim as stated: a for directive with a
fifth token renders successfully, using the first four tokens, instead
of failing with a Syntax error. -/
theorem c6_counterexample_extra_tokens_accepted :
    renderTemplate "\x7b% for x in xs y %\x7d\x7b\x7b x \x7d\x7d\x7b% endfor %\x7d".data
        [("xs".data, .vArr (.sStrs [some "a"]))]
      = .ok "a".data := by decide

/-- C6 witness: a two-token for directive fails with the Invalid for loop
Syntax error. -/
theorem c6_for_directive_shape_witness :
    forShapeOk (splitSpaces (trimC (sliceT "\x7b% for x %\x7dA".data (0 + 2) 9))) = false
      ∧ renderStep "\x7b% for x %\x7dA".data [] ⟨0, [], [], [], false, none⟩
        = .done (.err ⟨.errStx, invalidForMsg, 1⟩ []) := by
  refine ⟨by decide, ?_⟩
  have h := c6_for_directive_shape "\x7b% for x %\x7dA".data [] ⟨0, [], [], [], false, none⟩ 9
    rfl (by decide) (by decide) (by decide) (by decide) (by decide) (by decide)
  rw [h]
  decide

/-- C10 witness. -/
theorem c10_if_condition_checked_while_skipping_witness :
    shouldSkip [⟨false, false, 0⟩] = true
      ∧ contextGet [] "missing".data = none
      ∧ renderStep "\x7b% if missing %\x7dA".data []
          ⟨0, [], [⟨false, false, 0⟩], [], false, none⟩
        = .done (.err ⟨.errParse, "Missing template variable for \x27missing\x27".data, 1⟩ []) := by
  refine ⟨by decide, by decide, ?_⟩
  have h := c10_if_condition_checked_while_skipping "\x7b% if missing %\x7dA".data []
    ⟨0, [], [⟨false, false, 0⟩], [], false, none⟩ 14 rfl (by decide) (by decide) (by decide)
    (by decide) (by decide) (by intro fr hfr; simp at hfr) (by decide)
  rw [h]
  decide


end Breeze

namespace Breeze
theorem c1_step0_cons (rest : Context) (x : Option String) (l' : List (Option String)) :
    renderStep c1Tmpl (c1Ctx (x :: l') rest) ⟨0, [], [], [], false, none⟩
      = .next ⟨25, [⟨.sStrs (x :: l'), 0, "fruit".data, 25⟩], [], [], false, none⟩ := rfl

theorem c1_step25 (rest : Context) (l : List (Option String)) (i : Nat) (acc : List Char) :
    renderStep c1Tmpl (c1Ctx l rest)
        ⟨25, [⟨.sStrs l, i, "fruit".data, 25⟩], [], acc, false, none⟩
      = .next ⟨36, [⟨.sStrs l, i, "fruit".data, 25⟩], [],
          acc ++ strChars (l.getD i none), false, none⟩ := rfl

theorem c1_step36 (ctx : Context) (ls : List LoopFrame) (acc : List Char) :
    renderStep c1Tmpl ctx ⟨36, ls, [], acc, false, none⟩
      = .next ⟨37, ls, [], acc ++ [','], false, none⟩ := rfl

theorem c1_step37 (ctx : Context) (ls : List LoopFrame) (acc : List Char) :
    renderStep c1Tmpl ctx ⟨37, ls, [], acc, false, none⟩
      = .next ⟨38, ls, [], acc ++ [' '], false, none⟩ := rfl

theorem c1_step38 (ctx : Context) (l : List (Option String)) (i : Nat) (acc : List Char) :
    renderStep c1Tmpl ctx ⟨38, [⟨.sStrs l, i, "fruit".data, 25⟩], [], acc, false, none⟩
      = if i + 1 < l.length
          then .next ⟨25, [⟨.sStrs l, i + 1, "fruit".data, 25⟩], [], acc, false, none⟩
          else .next ⟨50, [], [], acc, false, none⟩ := rfl

theorem c1_step50 (ctx : Context) (acc : List Char) :
    renderStep c1Tmpl ctx ⟨50, [], [], acc, false, none⟩ = .done (.ok acc) := rfl

theorem renderLoop_next (tmpl : List Char) (ctx : Context) (f : Nat)
    (st st' : RenderState) (h : renderStep tmpl ctx st = .next st') :
    renderLoop tmpl ctx (f + 1) st = renderLoop tmpl ctx f st' := by
  rw [renderLoop_succ, h]

theorem renderLoop_done (tmpl : List Char) (ctx : Context) (f : Nat)
    (st : RenderState) (r : RenderResult) (h : renderStep tmpl ctx st = .done r) :
    renderLoop tmpl ctx (f + 1) st = r := by
  rw [renderLoop_succ, h]

theorem c1_loop (rest : Context) (l : List (Option String)) :
    ∀ (n i : Nat) (acc : List Char), i + n = l.length → 1 ≤ n →
      renderLoop c1Tmpl (c1Ctx l rest) (4 * n + 1)
          ⟨25, [⟨.sStrs l, i, "fruit".data, 25⟩], [], acc, false, none⟩
        = .ok (acc ++ ((l.drop i).map (fun s => strChars s ++ ", ".data)).flatten) := by
  intro n
  induction n with
  | zero => intro i acc h h1; omega
  | succ m ih =>
      intro i acc hin hpos
      have hi : i < l.length := by omega
      have hdropl : l.drop i = l.getD i none :: l.drop (i + 1) := by
        rw [List.getD_eq_getElem l none hi]
        exact List.drop_eq_getElem_cons hi
      have e1 : 4 * (m + 1) + 1 = (4 * m + 3) + 1 + 1 := by ring
      rw [e1, renderLoop_next _ _ _ _ _ (c1_step25 rest l i acc)]
      rw [renderLoop_next _ _ _ _ _ (c1_step36 (c1Ctx l rest) _ _)]
      have e3 : 4 * m + 2 = (4 * m + 1) + 1 := by ring
      rw [show (4 * m + 3 : Nat) = (4 * m + 2) + 1 from by ring]
      rw [renderLoop_next _ _ _ _ _ (c1_step37 (c1Ctx l rest) _ _)]
      rw [e3]
      by_cases hlast : i + 1 < l.length
      · rw [renderLoop_next _ _ _ _ _ (by rw [c1_step38 (c1Ctx l rest) l i]; rw [if_pos hlast])]
        have hrec := ih (i + 1) (acc ++ strChars (l.getD i none) ++ [','] ++ [' '])
          (by omega) (by omega)
        rw [hrec, hdropl]
        simp [List.append_assoc]
      · rw [renderLoop_next _ _ _ _ _ (by rw [c1_step38 (c1Ctx l rest) l i]; rw [if_neg hlast])]
        have hm : m = 0 := by omega
        subst hm
        rw [show (4 * 0 + 1 : Nat) = 0 + 1 from rfl]
        rw [renderLoop_done _ _ _ _ _ (c1_step50 (c1Ctx l rest) _)]
        have hdrop1 : l.drop (i + 1) = [] := by
          rw [List.drop_eq_nil_iff]
          omega
        rw [hdropl, hdrop1]
        simp [List.append_assoc]

theorem c1_empty_run (rest : Context) :
    renderLoop c1Tmpl (c1Ctx [] rest) 2 ⟨0, [], [], [], false, none⟩ = .ok [] := rfl

/-- C1: rendering the canonical for-loop template against any context
binding fruits to a string array iterates the loop body exactly once per
array element, in element order, substituting the loop variable with the
element at the current index, and succeeds (success entails that the
loop stack is empty at end of input, since a non-empty loop stack there
is an Unclosed-for Syntax error); the output is the concatenation, in
array order, of each element followed by a comma and a space. In
particular the apple, banana, cherry instance renders to exactly
the expected text. -/
theorem c1_for_loop_iteration :
    (∀ (l : List (Option String)) (rest : Context),
        renderTemplate c1Tmpl (c1Ctx l rest)
          = .ok ((l.map (fun s => strChars s ++ ", ".data)).flatten))
      ∧ renderTemplate c1Tmpl (c1Ctx [some "apple", some "banana", some "cherry"] [])
        = .ok "apple, banana, cherry, ".data := by
  constructor
  · intro l rest
    cases l with
    | nil =>
        have hfl : 2 ≤ fuelFor c1Tmpl (c1Ctx [] rest) := by
          have h2 : 2 * 2 ≤ (c1Tmpl.length + 2) * (ctxWeight (c1Ctx [] rest) + 2) :=
            Nat.mul_le_mul (by omega) (by omega)
          rw [fuelFor]
          omega
        have hres := renderLoop_mono c1Tmpl (c1Ctx [] rest) 2 _ _ _ (c1_empty_run rest)
          (by simp) hfl
        simpa [renderTemplate, renderTemplateWith] using hres
    | cons x l' =>
        have hloop := c1_loop rest (x :: l') (l'.length + 1) 0 [] (by simp) (by omega)
        have hrun : renderLoop c1Tmpl (c1Ctx (x :: l') rest) (4 * (l'.length + 1) + 1 + 1)
            ⟨0, [], [], [], false, none⟩
            = .ok (((x :: l').map (fun s => strChars s ++ ", ".data)).flatten) := by
          rw [renderLoop_next _ _ _ _ _ (c1_step0_cons rest x l')]
          simpa using hloop
        have hw : ctxWeight (c1Ctx (x :: l') rest) = l'.length + 1 + 1 + ctxWeight rest := by
          simp [c1Ctx, ctxWeight, scount]
        have hfl : 4 * (l'.length + 1) + 1 + 1 ≤ fuelFor c1Tmpl (c1Ctx (x :: l') rest) := by
          have hlen : c1Tmpl.length = 50 := rfl
          rw [fuelFor, hw, hlen]
          omega
        have hres := renderLoop_mono c1Tmpl (c1Ctx (x :: l') rest) _ _ _ _ hrun
          (by simp) hfl
        simpa [renderTemplate, renderTemplateWith] using hres
  · decide


end Breeze
